import Mathlib

/-!
Shallow embedding of the pinball simulation core (GameLoop.js, StateMachine.js,
PhysicsEngine.js, HardwareConfig.js, CollisionSystem.js) and proofs about it.

Numbers are modelled as exact rationals (ℚ).  `Math.PI` is modelled by the
rational constant `mathPi` (the shortest decimal rendering of the IEEE-754
double `Math.PI`).  JavaScript `Math.sqrt`, `Math.cos` and `Math.sin` are
transcendental, so functions that call them take the corresponding function as
an explicit parameter; theorems either hold for every such parameter or
constrain it only at the arguments actually used (e.g. `sq 0 = 0`).
A JavaScript division `a / b` with `b = 0` produces `NaN` (or `±Infinity`);
divisions whose divisor can be zero are modelled by `jsDiv`, which returns
`none` in that case, and collision routines return `Option` values where
`none` means "a non-finite (NaN) coordinate was produced".
-/

namespace Pinball

/-- Rational stand-in for the IEEE-754 double `Math.PI`. -/
def mathPi : ℚ := 3.141592653589793

/-- JavaScript division: `none` models the non-finite result (`NaN`/`±Infinity`)
of dividing by zero. -/
def jsDiv (a b : ℚ) : Option ℚ := if b = 0 then none else some (a / b)

/-- Embeds `Math.abs`. -/
def jsAbs (q : ℚ) : ℚ := if q < 0 then -q else q

/-! ### Physics constants (HardwareConfig.js, `Physics`) -/

def GRAVITY : ℚ := 0.12
def BALL_RADIUS : ℚ := 12
def FLIPPER_LENGTH : ℚ := 65
def FLIPPER_WIDTH : ℚ := 12
def FLIPPER_ANGULAR_VEL : ℚ := 18
def FLIPPER_MAX_ANGLE : ℚ := 45
def FLIPPER_REST_ANGLE : ℚ := -25
def BALL_FRICTION : ℚ := 0.998
def BOUNCE_DAMPING : ℚ := 0.65
def BUMPER_KICK : ℚ := 10
def FLIPPER_KICK : ℚ := 14
def MAX_VELOCITY : ℚ := 28

/-! ### PlayfieldConfig (HardwareConfig.js) -/

def PLAYFIELD_WIDTH : ℚ := 800
def PLAYFIELD_HEIGHT : ℚ := 1200
def SHOOTER_LANE_X : ℚ := 750
def SHOOTER_LANE_Y : ℚ := 1100
def DRAIN_X : ℚ := 300
def DRAIN_Y : ℚ := 1180
def DRAIN_WIDTH : ℚ := 200
def LEFT_FLIPPER_X : ℚ := 280
def LEFT_FLIPPER_Y : ℚ := 1050
def RIGHT_FLIPPER_X : ℚ := 520
def RIGHT_FLIPPER_Y : ℚ := 1050

/-! ### Ball (PhysicsEngine.js) -/

structure Ball where
  id : ℕ
  x : ℚ
  y : ℚ
  prevX : ℚ
  prevY : ℚ
  vx : ℚ
  vy : ℚ
  radius : ℚ
  active : Bool
  captured : Bool
  capturedBy : Option String
deriving DecidableEq, Repr

/-- Embeds `new Ball(x, y, id)`. -/
def mkBall (x y : ℚ) (id : ℕ) : Ball :=
  { id := id, x := x, y := y, prevX := x, prevY := y, vx := 0, vy := 0,
    radius := BALL_RADIUS, active := true, captured := false, capturedBy := none }

/-- Embeds `Ball.update(dt)`: integration step (gravity, friction, speed clamp,
position advance).  `sq` models `Math.sqrt`; the only division, by `speed`,
happens under the guard `speed > MAX_VELOCITY` and so never divides by zero. -/
def Ball.update (sq : ℚ → ℚ) (b : Ball) : Ball :=
  if b.active = false ∨ b.captured = true then b
  else
    let prevX := b.x
    let prevY := b.y
    let vy1 := b.vy + GRAVITY
    let vx2 := b.vx * BALL_FRICTION
    let vy2 := vy1 * BALL_FRICTION
    let speed := sq (vx2 * vx2 + vy2 * vy2)
    let scale := if speed > MAX_VELOCITY then MAX_VELOCITY / speed else 1
    let vx3 := vx2 * scale
    let vy3 := vy2 * scale
    { b with prevX := prevX, prevY := prevY,
             vx := vx3, vy := vy3, x := b.x + vx3, y := b.y + vy3 }

/-- Embeds `Ball.applyImpulse(ix, iy)`. -/
def Ball.applyImpulse (b : Ball) (ix iy : ℚ) : Ball :=
  { b with vx := b.vx + ix, vy := b.vy + iy }

/-- Embeds `Ball.capture(captor)`. -/
def Ball.capture (b : Ball) (captor : String) : Ball :=
  { b with captured := true, capturedBy := some captor, vx := 0, vy := 0 }

/-- Embeds `Ball.release(vx, vy)`. -/
def Ball.release (b : Ball) (vx vy : ℚ) : Ball :=
  { b with captured := false, capturedBy := none, vx := vx, vy := vy }

/-! ### Flipper (PhysicsEngine.js) -/

structure Flipper where
  x : ℚ
  y : ℚ
  isLeft : Bool
  length : ℚ
  width : ℚ
  restAngle : ℚ
  maxAngle : ℚ
  angle : ℚ
  targetAngle : ℚ
  angularVelocity : ℚ
  isPressed : Bool
deriving DecidableEq, Repr

/-- Embeds `new Flipper(x, y, isLeft)`; angles in radians via `mathPi`. -/
def mkFlipper (x y : ℚ) (isLeft : Bool) : Flipper :=
  let restAngle :=
    if isLeft then FLIPPER_REST_ANGLE * mathPi / 180
    else mathPi - FLIPPER_REST_ANGLE * mathPi / 180
  let maxAngle :=
    if isLeft then (FLIPPER_REST_ANGLE + FLIPPER_MAX_ANGLE) * mathPi / 180
    else mathPi - (FLIPPER_REST_ANGLE + FLIPPER_MAX_ANGLE) * mathPi / 180
  { x := x, y := y, isLeft := isLeft, length := FLIPPER_LENGTH,
    width := FLIPPER_WIDTH, restAngle := restAngle, maxAngle := maxAngle,
    angle := restAngle, targetAngle := restAngle,
    angularVelocity := 0, isPressed := false }

/-- Embeds `Flipper.press()`. -/
def Flipper.press (f : Flipper) : Flipper :=
  { f with isPressed := true, targetAngle := f.maxAngle }

/-- Embeds `Flipper.release()`. -/
def Flipper.release (f : Flipper) : Flipper :=
  { f with isPressed := false, targetAngle := f.restAngle }

/-- The per-tick angular speed `FLIPPER_ANGULAR_VEL * Math.PI / 180`. -/
def flipperAngularSpeed : ℚ := FLIPPER_ANGULAR_VEL * mathPi / 180

/-- Embeds `Flipper.update(dt)` (dt is unused by the source). -/
def Flipper.update (f : Flipper) : Flipper :=
  let angleDiff := f.targetAngle - f.angle
  let angularSpeed := flipperAngularSpeed
  if jsAbs angleDiff < 0.01 then
    { f with angle := f.targetAngle, angularVelocity := 0 }
  else if angleDiff > 0 then
    let av := if f.isLeft then angularSpeed else -angularSpeed
    let a := f.angle + av
    let a' := if (f.isLeft = true ∧ a > f.targetAngle) ∨
                 (f.isLeft = false ∧ a < f.targetAngle) then f.targetAngle else a
    { f with angularVelocity := av, angle := a' }
  else
    let av := if f.isLeft then -angularSpeed * 0.6 else angularSpeed * 0.6
    let a := f.angle + av
    let a' := if (f.isLeft = true ∧ a < f.targetAngle) ∨
                 (f.isLeft = false ∧ a > f.targetAngle) then f.targetAngle else a
    { f with angularVelocity := av, angle := a' }

/-- Embeds `Flipper.isMovingUp()`. -/
def Flipper.isMovingUp (f : Flipper) : Bool :=
  if f.isLeft then decide (f.angularVelocity > 0.1)
  else decide (f.angularVelocity < -0.1)

/-- The two flippers as created by `PhysicsEngine.initialize()`. -/
def leftFlipper : Flipper := mkFlipper LEFT_FLIPPER_X LEFT_FLIPPER_Y true

def rightFlipper : Flipper := mkFlipper RIGHT_FLIPPER_X RIGHT_FLIPPER_Y false

/-! ### Collision zones (CollisionSystem.js) -/

/-- A collision zone record; fields unused by a given shape default to `0`.
`normal` models the optional `zone.normal` object. -/
structure Zone where
  name : String
  shape : String            -- the source field `type`: "circle" | "rect" | "line"
  x : ℚ := 0
  y : ℚ := 0
  radius : ℚ := 0
  w : ℚ := 0
  h : ℚ := 0
  x1 : ℚ := 0
  y1 : ℚ := 0
  x2 : ℚ := 0
  y2 : ℚ := 0
  kicks : Bool := false
  kickStrength : ℚ := 0
  capturesBall : Bool := false
  normal : Option (ℚ × ℚ) := none
deriving DecidableEq, Repr

/-- Embeds `zone.normal?.x || 0`: JavaScript `||` yields the right operand when the
left is falsy (absent or `0`). -/
def fallbackNormalX (z : Zone) : ℚ :=
  match z.normal with
  | none => 0
  | some n => if n.1 = 0 then 0 else n.1

/-- Embeds `zone.normal?.y || -1`. -/
def fallbackNormalY (z : Zone) : ℚ :=
  match z.normal with
  | none => -1
  | some n => if n.2 = 0 then -1 else n.2

/-- Embeds `PhysicsEngine.checkCircleCollision(ball, zone)`.  Returns the updated ball
and the hit flag; `none` models a NaN result: when `dist = 0` the source
computes `nx = dx / dist = 0/0 = NaN` (there is no fallback normal on this
path) and all subsequent position/velocity updates are NaN. -/
def checkCircleCollision (sq : ℚ → ℚ) (b : Ball) (z : Zone) :
    Option (Ball × Bool) :=
  let dx := b.x - z.x
  let dy := b.y - z.y
  let dist := sq (dx * dx + dy * dy)
  let minDist := b.radius + z.radius
  if dist < minDist then
    match jsDiv dx dist, jsDiv dy dist with
    | some nx, some ny =>
      let overlap := minDist - dist
      let x1 := b.x + nx * overlap
      let y1 := b.y + ny * overlap
      let dot := b.vx * nx + b.vy * ny
      let vx1 := (b.vx - 2 * dot * nx) * BOUNCE_DAMPING
      let vy1 := (b.vy - 2 * dot * ny) * BOUNCE_DAMPING
      let vx2 := if z.kicks then vx1 + nx * z.kickStrength else vx1
      let vy2 := if z.kicks then vy1 + ny * z.kickStrength else vy1
      some ({ b with x := x1, y := y1, vx := vx2, vy := vy2 }, true)
    | _, _ => none
  else some (b, false)

/-- Embeds `PhysicsEngine.checkRectCollision(ball, zone)`.  On the degenerate path
(`dist = 0`, ball centre at the closest point) the source substitutes the
declared fallback normal, so no division by zero occurs. -/
def checkRectCollision (sq : ℚ → ℚ) (b : Ball) (z : Zone) :
    Option (Ball × Bool) :=
  let closestX := max z.x (min b.x (z.x + z.w))
  let closestY := max z.y (min b.y (z.y + z.h))
  let dx := b.x - closestX
  let dy := b.y - closestY
  let dist := sq (dx * dx + dy * dy)
  if dist < b.radius then
    let nx := if dist > 0 then dx / dist else fallbackNormalX z
    let ny := if dist > 0 then dy / dist else fallbackNormalY z
    let overlap := b.radius - dist
    let x1 := b.x + nx * overlap
    let y1 := b.y + ny * overlap
    let dot := b.vx * nx + b.vy * ny
    let vx1 := (b.vx - 2 * dot * nx) * BOUNCE_DAMPING
    let vy1 := (b.vy - 2 * dot * ny) * BOUNCE_DAMPING
    some ({ b with x := x1, y := y1, vx := vx1, vy := vy1 }, true)
  else some (b, false)

/-- Embeds `PhysicsEngine.checkLineCollision(ball, zone)`.  A zero-length segment or a
ball exactly on the closest point leads to a division by zero (NaN), modelled
as `none`. -/
def checkLineCollision (sq : ℚ → ℚ) (b : Ball) (z : Zone) :
    Option (Ball × Bool) :=
  let dx := z.x2 - z.x1
  let dy := z.y2 - z.y1
  let len := sq (dx * dx + dy * dy)
  match jsDiv dx len, jsDiv dy len with
  | some nx, some ny =>
    let bx := b.x - z.x1
    let by' := b.y - z.y1
    let proj := bx * nx + by' * ny
    let clampedProj := max 0 (min len proj)
    let closestX := z.x1 + nx * clampedProj
    let closestY := z.y1 + ny * clampedProj
    let distX := b.x - closestX
    let distY := b.y - closestY
    let dist := sq (distX * distX + distY * distY)
    if dist < b.radius then
      match jsDiv distX dist, jsDiv distY dist with
      | some pnx, some pny =>
        let overlap := b.radius - dist
        let x1 := b.x + pnx * overlap
        let y1 := b.y + pny * overlap
        let dot := b.vx * pnx + b.vy * pny
        let vx1 := (b.vx - 2 * dot * pnx) * BOUNCE_DAMPING
        let vy1 := (b.vy - 2 * dot * pny) * BOUNCE_DAMPING
        some ({ b with x := x1, y := y1, vx := vx1, vy := vy1 }, true)
      | _, _ => none
    else some (b, false)
  | _, _ => none

/-- Embeds `PhysicsEngine.checkFlipperCollision(ball, flipper)`.  `cs`/`sn` model
`Math.cos`/`Math.sin` (used by `getTipPosition`), `sq` models `Math.sqrt`.
The kick impulse is applied exactly under the source's
`if (flipper.isMovingUp())` guard. -/
def checkFlipperCollision (sq cs sn : ℚ → ℚ) (b : Ball) (f : Flipper) :
    Option (Ball × Bool) :=
  let tipX := f.x + cs f.angle * f.length
  let tipY := f.y + sn f.angle * f.length
  let dx := tipX - f.x
  let dy := tipY - f.y
  let len := sq (dx * dx + dy * dy)
  match jsDiv dx len, jsDiv dy len with
  | some nx, some ny =>
    let bx := b.x - f.x
    let by' := b.y - f.y
    let proj := bx * nx + by' * ny
    let clampedProj := max 0 (min len proj)
    let closestX := f.x + nx * clampedProj
    let closestY := f.y + ny * clampedProj
    let distX := b.x - closestX
    let distY := b.y - closestY
    let dist := sq (distX * distX + distY * distY)
    let collisionDist := b.radius + f.width / 2
    if dist < collisionDist then
      match jsDiv distX dist, jsDiv distY dist with
      | some nX, some nY =>
        let overlap := collisionDist - dist
        let x1 := b.x + nX * overlap
        let y1 := b.y + nY * overlap
        let dot := b.vx * nX + b.vy * nY
        let vx1 := (b.vx - 2 * dot * nX) * BOUNCE_DAMPING
        let vy1 := (b.vy - 2 * dot * nY) * BOUNCE_DAMPING
        let b1 := { b with x := x1, y := y1, vx := vx1, vy := vy1 }
        let b2 :=
          if f.isMovingUp then
            let kickX := -ny * FLIPPER_KICK * (if f.isLeft then 0.3 else -0.3)
            let kickY := -(jsAbs nx) * FLIPPER_KICK
            b1.applyImpulse kickX kickY
          else b1
        some (b2, true)
      | _, _ => none
    else some (b, false)
  | _, _ => none

/-- Embeds `PhysicsEngine.checkZoneCollision(ball, zone)`: dispatch on `zone.type`. -/
def checkZoneCollision (sq : ℚ → ℚ) (b : Ball) (z : Zone) :
    Option (Ball × Bool) :=
  if z.shape = "circle" then checkCircleCollision sq b z
  else if z.shape = "rect" then checkRectCollision sq b z
  else if z.shape = "line" then checkLineCollision sq b z
  else some (b, false)

/-- Embeds `PhysicsEngine.handleZoneHit(ball, zone)` (the collision event emission is
not modelled; the capture side effect is). -/
def handleZoneHit (b : Ball) (z : Zone) : Ball :=
  if z.capturesBall then
    let b1 := b.capture z.name
    { b1 with x := z.x, y := z.y }
  else b

/-- Embeds `PhysicsEngine.checkZoneCollisions(ball)`: fold over the zone table. -/
def checkZoneCollisions (sq : ℚ → ℚ) (zones : List Zone) (b : Ball) :
    Option Ball :=
  zones.foldl
    (fun ob z =>
      ob.bind fun b =>
        (checkZoneCollision sq b z).map fun r =>
          if r.2 then handleZoneHit r.1 z else r.1)
    (some b)

/-- Embeds `PhysicsEngine.checkBoundaryCollision(ball)` (pure, no square roots). -/
def checkBoundaryCollision (b : Ball) : Ball :=
  let boundLeft : ℚ := 50
  let boundRight : ℚ := PLAYFIELD_WIDTH - 50
  let boundTop : ℚ := 50
  let b1 :=
    if b.x - b.radius < boundLeft then
      { b with x := boundLeft + b.radius, vx := jsAbs b.vx * BOUNCE_DAMPING }
    else b
  let b2 :=
    if b1.x + b1.radius > boundRight ∧ b1.y < SHOOTER_LANE_Y - 100 then
      { b1 with x := boundRight - b1.radius, vx := -(jsAbs b1.vx) * BOUNCE_DAMPING }
    else b1
  if b2.y - b2.radius < boundTop then
    { b2 with y := boundTop + b2.radius, vy := jsAbs b2.vy * BOUNCE_DAMPING }
  else b2

/-- Embeds `PhysicsEngine.checkDrain(ball)` (the drain event emission is not
modelled). -/
def checkDrain (b : Ball) : Ball :=
  if b.x > DRAIN_X ∧ b.x < DRAIN_X + DRAIN_WIDTH ∧ b.y > DRAIN_Y then
    { b with active := false }
  else b

/-- The collision-resolution stages that `PhysicsEngine.update` applies to one
ball after integration: boundary, both flippers, zones, drain. -/
def resolveCollisions (sq cs sn : ℚ → ℚ) (lf rf : Flipper) (zones : List Zone)
    (b : Ball) : Option Ball :=
  ((checkFlipperCollision sq cs sn (checkBoundaryCollision b) lf).bind
      fun r => checkFlipperCollision sq cs sn r.1 rf).bind
    fun r => (checkZoneCollisions sq zones r.1).map checkDrain

/-- The body of `PhysicsEngine.update`'s per-ball loop: inactive or captured
balls are skipped entirely (`continue`); others are integrated and resolved. -/
def engineBallTick (sq cs sn : ℚ → ℚ) (lf rf : Flipper) (zones : List Zone)
    (b : Ball) : Option Ball :=
  if b.active = false ∨ b.captured = true then some b
  else resolveCollisions sq cs sn lf rf zones (Ball.update sq b)

/-- Runs `n` consecutive per-ball engine ticks (flippers and zones held fixed). -/
def engineBallTickN (sq cs sn : ℚ → ℚ) (lf rf : Flipper) (zones : List Zone) :
    ℕ → Ball → Option Ball
  | 0, b => some b
  | n + 1, b => (engineBallTick sq cs sn lf rf zones b).bind
      (engineBallTickN sq cs sn lf rf zones n)

/-- The `bumper_left` zone from CollisionSystem.js. -/
def bumperLeft : Zone :=
  { name := "bumper_left", shape := "circle", x := 250, y := 280, radius := 28,
    kicks := true, kickStrength := BUMPER_KICK }

/-! ### Ball lifecycle on the engine's ball list (PhysicsEngine.js) -/

/-- Embeds `PhysicsEngine.createBall(x, y)`: the new ball's id is the current length
of `this.balls`. -/
def createBall (balls : List Ball) (x y : ℚ) : List Ball × Ball :=
  let b := mkBall x y balls.length
  (balls ++ [b], b)

/-- Embeds `PhysicsEngine.removeBall(ball)`: `indexOf` + `splice(index, 1)` removes
the first occurrence and is a no-op when the ball is absent. -/
def removeBall (balls : List Ball) (b : Ball) : List Ball :=
  balls.eraseP (fun b' => decide (b' = b))

/-- A sequence of `createBall` calls (positions given in order). -/
def createMany (balls : List Ball) (ps : List (ℚ × ℚ)) : List Ball :=
  ps.foldl (fun s p => (createBall s p.1 p.2).1) balls

/-- The drain effect of `checkDrain` on a ball that entered the drain region:
`ball.active = false`; the ball stays in `this.balls`. -/
def deactivate (b : Ball) : Ball := { b with active := false }

/-- Drain-deactivate the ball at index `i` (balls are deactivated in place,
never removed, on drain). -/
def deactivateAt : List Ball → ℕ → List Ball
  | [], _ => []
  | b :: bs, 0 => deactivate b :: bs
  | b :: bs, i + 1 => b :: deactivateAt bs i

/-- A createBall / drain-deactivation operation on the ball list. -/
inductive BallOp where
  | create (x y : ℚ)
  | drain (i : ℕ)
deriving DecidableEq, Repr

/-- Apply a sequence of create/drain operations to the ball list. -/
def applyBallOps : List Ball → List BallOp → List Ball
  | s, [] => s
  | s, .create x y :: ops => applyBallOps (createBall s x y).1 ops
  | s, .drain i :: ops => applyBallOps (deactivateAt s i) ops

/-! ### Fixed-timestep scheduler (GameLoop.js) -/

/-- The scheduler clock state (FPS counters and the animation-frame handle are
not modelled). -/
structure LoopState where
  isRunning : Bool
  isPaused : Bool
  lastTime : ℚ
  accumulator : ℚ
deriving DecidableEq, Repr

/-- Embeds `this.fixedDeltaTime = 1000 / 60`. -/
def fixedDeltaTime : ℚ := 1000 / 60

/-- Embeds `this.maxAccumulator = this.fixedDeltaTime * 5`. -/
def maxAccumulator : ℚ := fixedDeltaTime * 5

/-- Closed form of the consumption loop
`while (accumulator >= fixedDeltaTime) { update(); accumulator -= fixedDeltaTime }`:
the number of iterations and the remaining accumulator.  For
`acc < fixedDeltaTime` (including negative values) the loop body never runs
and `⌊acc / fixedDeltaTime⌋.toNat = 0`; otherwise it runs
`⌊acc / fixedDeltaTime⌋` times leaving `acc - n·fixedDeltaTime`. -/
def consumeSteps (acc : ℚ) : ℕ × ℚ :=
  let n := (⌊acc / fixedDeltaTime⌋).toNat
  (n, acc - n * fixedDeltaTime)

/-- Embeds `GameLoop.loop(currentTime)`: returns the new clock state, the number of
fixed `update` calls made, and the alpha passed to `render` (`none` when the
loop is stopped and returns early). -/
def loopTick (s : LoopState) (now : ℚ) : LoopState × ℕ × Option ℚ :=
  if s.isRunning = false then (s, 0, none)
  else
    let delta := now - s.lastTime
    let s1 := { s with lastTime := now }
    if s1.isPaused then (s1, 0, some (s1.accumulator / fixedDeltaTime))
    else
      let acc := s1.accumulator + min delta maxAccumulator
      let r := consumeSteps acc
      let s2 := { s1 with accumulator := r.2 }
      (s2, r.1, some (r.2 / fixedDeltaTime))

/-- Embeds `GameLoop.start()` at wall-clock `now`. -/
def loopStart (s : LoopState) (now : ℚ) : LoopState :=
  if s.isRunning then s
  else { isRunning := true, isPaused := false, lastTime := now, accumulator := 0 }

/-- Embeds `GameLoop.stop()`. -/
def loopStop (s : LoopState) : LoopState := { s with isRunning := false }

/-- Embeds `GameLoop.pause()`. -/
def loopPause (s : LoopState) : LoopState :=
  if s.isPaused then s else { s with isPaused := true }

/-- Embeds `GameLoop.resume()` at wall-clock `now`: re-anchors the clock and zeroes
the accumulator. -/
def loopResume (s : LoopState) (now : ℚ) : LoopState :=
  if s.isPaused then
    { s with isPaused := false, lastTime := now, accumulator := 0 }
  else s

/-- An external scheduler operation. -/
inductive LoopOp where
  | tick (now : ℚ)
  | start (now : ℚ)
  | stop
  | pause
  | resume (now : ℚ)
deriving DecidableEq, Repr

/-- Run a sequence of scheduler operations, collecting every alpha passed to
`render` in order. -/
def runLoop : LoopState → List LoopOp → LoopState × List ℚ
  | s, [] => (s, [])
  | s, .tick now :: ops =>
    let r := loopTick s now
    let rest := runLoop r.1 ops
    (rest.1, (r.2.2.toList) ++ rest.2)
  | s, .start now :: ops => runLoop (loopStart s now) ops
  | s, .stop :: ops => runLoop (loopStop s) ops
  | s, .pause :: ops => runLoop (loopPause s) ops
  | s, .resume now :: ops => runLoop (loopResume s now) ops

/-- Chronological validity: every tick's timestamp is at least the currently
anchored `lastTime` (timestamps are non-decreasing). -/
def validOps : LoopState → List LoopOp → Bool
  | _, [] => true
  | s, .tick now :: ops =>
    decide (s.lastTime ≤ now) && validOps (loopTick s now).1 ops
  | s, .start now :: ops => validOps (loopStart s now) ops
  | s, .stop :: ops => validOps (loopStop s) ops
  | s, .pause :: ops => validOps (loopPause s) ops
  | s, .resume now :: ops => validOps (loopResume s now) ops

/-- The clock invariant: the carried accumulator is non-negative and strictly
below one fixed step. -/
def LoopInv (s : LoopState) : Prop :=
  0 ≤ s.accumulator ∧ s.accumulator < fixedDeltaTime

/-! ### Hierarchical state machine (StateMachine.js)

States live in an arena indexed by natural numbers; `parent`, `children` and
`activeChild` are indices.  A dotted path string such as `"game.playing"` is
modelled by its list of segments `["game", "playing"]` (the source splits the
string on `"."` on entry to `transition`, so the two representations are in
bijection).  User-supplied hooks are modelled by the lists
`enterReqs`/`exitReqs`: the transition paths that the hook requests via
`machine.transition(...)` when invoked.  Every hook in the modelled claims
runs while `transitioning` is `true`, so such a request is appended to the
FIFO `eventQueue` — exactly what the source's re-entrancy guard does.  The
`trace` records hook invocations in order (observational only). -/

structure SNode where
  name : String
  parent : Option ℕ
  children : List (String × ℕ)
  activeChild : Option ℕ
  enterReqs : List (List String)
  exitReqs : List (List String)
deriving DecidableEq, Repr

inductive HookEv where
  | enter (name : String)
  | exit (name : String)
deriving DecidableEq, Repr

structure SM where
  nodes : List SNode
  states : List (String × ℕ)
  currentState : Option ℕ
  history : List (List String)
  maxHistory : ℕ
  transitioning : Bool
  eventQueue : List (List String)
  trace : List HookEv
deriving DecidableEq, Repr

/-- Look up a registered root state by name (`this.states.get(name)`). -/
def SM.lookupRoot (m : SM) (name : String) : Option ℕ :=
  (m.states.find? (fun p => p.1 == name)).map (·.2)

/-- The name of node `i`. -/
def SM.nameOf (m : SM) (i : ℕ) : Option String :=
  (m.nodes[i]?).map (·.name)

/-- The parent index of node `i`. -/
def SM.parentOf (m : SM) (i : ℕ) : Option ℕ :=
  (m.nodes[i]?).bind (·.parent)

/-- The active child index of node `i`. -/
def SM.activeChildOf (m : SM) (i : ℕ) : Option ℕ :=
  (m.nodes[i]?).bind (·.activeChild)

/-- Look up a child of node `i` by name (`state.children.get(name)`). -/
def SM.lookupChild (m : SM) (i : ℕ) (name : String) : Option ℕ :=
  (m.nodes[i]?).bind fun n => ((n.children.find? (fun p => p.1 == name)).map (·.2))

/-- Overwrite node `i`'s `activeChild` pointer. -/
def SM.setActiveChild (m : SM) (i : ℕ) (v : Option ℕ) : SM :=
  match m.nodes[i]? with
  | none => m
  | some n => { m with nodes := m.nodes.set i { n with activeChild := v } }

/-- Invoke node `i`'s `onEnter` hook: record the invocation and append the
transitions the hook requests (the machine is mid-transition, so
`machine.transition` enqueues them). -/
def SM.fireEnter (m : SM) (i : ℕ) : SM :=
  match m.nodes[i]? with
  | none => m
  | some n => { m with trace := m.trace ++ [.enter n.name],
                       eventQueue := m.eventQueue ++ n.enterReqs }

/-- Invoke node `i`'s `onExit` hook (see `SM.fireEnter`). -/
def SM.fireExit (m : SM) (i : ℕ) : SM :=
  match m.nodes[i]? with
  | none => m
  | some n => { m with trace := m.trace ++ [.exit n.name],
                       eventQueue := m.eventQueue ++ n.exitReqs }

/-- Walk `activeChild` pointers down from `i` to the deepest active
descendant (`while (state.activeChild) state = state.activeChild`). -/
def SM.activeLeafFrom (m : SM) : ℕ → ℕ → ℕ
  | 0, i => i
  | fuel + 1, i =>
    match m.activeChildOf i with
    | some c => m.activeLeafFrom fuel c
    | none => i

/-- The upward exit walk of `exitCurrentState`:
`while (state && state !== currentState.parent) { state.onExit(); state = state.parent }`.
`stopAt` is `currentState.parent`. -/
def SM.exitUp (stopAt : Option ℕ) : ℕ → SM → Option ℕ → SM
  | _, m, none => m
  | 0, m, some _ => m
  | fuel + 1, m, some i =>
    if stopAt = some i then m
    else SM.exitUp stopAt fuel (m.fireExit i) (m.parentOf i)

/-- Embeds `StateMachine.exitCurrentState()`: walks to the deepest active descendant,
exits upward, then additionally calls `currentState.onExit()` once more.  No
`activeChild` pointer is cleared anywhere on this path. -/
def SM.exitCurrentState (m : SM) : SM :=
  match m.currentState with
  | none => m
  | some cur =>
    let leaf := m.activeLeafFrom m.nodes.length cur
    let m1 := SM.exitUp (m.parentOf cur) (m.nodes.length + 1) m (some leaf)
    m1.fireExit cur

/-- Embeds `State.exitChild()` on node `i`: recursively exits the active-child chain
below `i`, then clears `i`'s `activeChild`. -/
def SM.exitChildRec : ℕ → SM → ℕ → SM
  | 0, m, _ => m
  | fuel + 1, m, i =>
    match m.activeChildOf i with
    | none => m
    | some c =>
      let m1 := match m.activeChildOf c with
                | some _ => SM.exitChildRec fuel m c
                | none => m
      let m2 := m1.fireExit c
      m2.setActiveChild i none

/-- Embeds `State.enterChild(stateName)` on node `i`: exits the current child chain,
then sets `activeChild` and fires the child's `onEnter` (a missing child is a
logged no-op). -/
def SM.enterChild (m : SM) (i : ℕ) (childName : String) : SM :=
  let m1 := if (m.activeChildOf i).isSome then SM.exitChildRec m.nodes.length m i else m
  match m1.lookupChild i childName with
  | some c => (m1.setActiveChild i (some c)).fireEnter c
  | none => m1

/-- Embeds `StateMachine.enterNestedState(parentState, pathParts)`: descend the path,
stopping at the first unknown child name. -/
def SM.enterNested : SM → ℕ → List String → SM
  | m, _, [] => m
  | m, i, part :: rest =>
    if (m.lookupChild i part).isSome then
      let m1 := m.enterChild i part
      match m1.activeChildOf i with
      | some c => SM.enterNested m1 c rest
      | none => m1
    else m

/-- Embeds `StateMachine.recordHistory(statePath)` (timestamps not modelled):
bounded ring of `maxHistory` entries, oldest evicted first. -/
def SM.recordHistory (m : SM) (path : List String) : SM :=
  let h := m.history ++ [path]
  { m with history := if h.length > m.maxHistory then h.tail else h }

/-- The body of `StateMachine.transition` that runs inside the `try` block
(the `transitioning` flag is already set by the caller). -/
def SM.transitionCore (m : SM) (path : List String) : SM :=
  let pathParts := path
  let targetStateName := pathParts.headD ""
  match m.currentState with
  | none => m
  | some cur =>
    if m.nameOf cur ≠ some targetStateName then
      let m1 := m.exitCurrentState
      match m1.lookupRoot targetStateName with
      | some ns =>
        let m2 := SM.fireEnter { m1 with currentState := some ns } ns
        let m3 := if pathParts.length > 1 then m2.enterNested ns pathParts.tail else m2
        m3.recordHistory path
      | none => m1
    else
      if pathParts.length > 1 then
        (m.enterNested cur pathParts.tail).recordHistory path
      else m

/-- Embeds `StateMachine.processEventQueue()`:
`while (eventQueue.length > 0 && !transitioning) { transition(shift()) }`.
A replayed `transition` call finds the busy flag clear, so it runs
`transitionCore` with the flag set, clears the flag and (in the source) drains
recursively in its own `finally`; since the recursive drain and the outer
`while` loop pop the same shared queue, the flattened loop below executes the
same transitions in the same FIFO order.  `fuel` bounds the loop. -/
def SM.drainF : ℕ → SM → SM
  | 0, m => m
  | fuel + 1, m =>
    if m.transitioning then m
    else
      match m.eventQueue with
      | [] => m
      | p :: rest =>
        let m1 := SM.transitionCore
          { m with eventQueue := rest, transitioning := true } p
        SM.drainF fuel { m1 with transitioning := false }

/-- Embeds `StateMachine.transition(statePath)`: enqueue when a transition is in
flight, otherwise set the busy flag, run the core, clear the flag and drain
the queue (the source's `finally` + `processEventQueue`). -/
def SM.transitionF (fuel : ℕ) (m : SM) (path : List String) : SM :=
  if m.transitioning then { m with eventQueue := m.eventQueue ++ [path] }
  else
    let m1 := SM.transitionCore { m with transitioning := true } path
    SM.drainF fuel { m1 with transitioning := false }

/-- Embeds `StateMachine.start(stateName)`. -/
def SM.start (m : SM) (name : String) : SM :=
  match m.lookupRoot name with
  | some i => (SM.fireEnter { m with currentState := some i } i).recordHistory [name]
  | none => m

/-- The `root.activeChild....` name chain used by `getCurrentStatePath`. -/
def SM.pathNames (m : SM) : ℕ → ℕ → List String
  | 0, i => (m.nameOf i).toList
  | fuel + 1, i =>
    match m.nameOf i with
    | none => []
    | some nm =>
      match m.activeChildOf i with
      | some c => nm :: m.pathNames fuel c
      | none => [nm]

/-- Embeds `StateMachine.getCurrentStatePath()`. -/
def SM.getCurrentStatePath (m : SM) : String :=
  match m.currentState with
  | none => ""
  | some i => String.intercalate "." (m.pathNames m.nodes.length i)

/-! ### Concrete scenario data used by the theorems -/

/-- The `top_lane_left` zone from CollisionSystem.js (a rect zone with a
declared fallback normal). -/
def topLaneLeft : Zone :=
  { name := "top_lane_left", shape := "rect", x := 200, y := 80, w := 60,
    h := 30, normal := some (0, 1) }

/-- A radius-12 ball whose centre coincides exactly with `bumper_left`'s
centre. -/
def degenerateCircleBall : Ball := { mkBall 250 280 0 with vx := 3, vy := 4 }

/-- A ball whose centre lies strictly inside `top_lane_left`, so the closest
rect point is the centre itself (`dist = 0`). -/
def degenerateRectBall : Ball := { mkBall 220 95 0 with vx := 2, vy := -3 }

/-- A stationary flipper blade along the positive x-axis from the origin
(used to exercise the kick gate of `checkFlipperCollision`). -/
def gateFlipper : Flipper :=
  { x := 0, y := 0, isLeft := true, length := FLIPPER_LENGTH,
    width := FLIPPER_WIDTH, restAngle := 0, maxAngle := 1, angle := 0,
    targetAngle := 1, angularVelocity := 0, isPressed := true }

/-- The same blade with `angularVelocity = 0.2 > 0.1`, i.e. `isMovingUp`. -/
def gateFlipperMoving : Flipper := { gateFlipper with angularVelocity := 0.2 }

/-- A square-root table for the gate scenario: the only radicands reached are
`65² = 4225` (blade length) and `10² = 100` (ball-to-blade distance). -/
def gateSqrt : ℚ → ℚ := fun q => if q = 4225 then 65 else if q = 100 then 10 else 0

/-- Models `Math.cos` at angle 0. -/
def gateCos : ℚ → ℚ := fun _ => 1

/-- Models `Math.sin` at angle 0. -/
def gateSin : ℚ → ℚ := fun _ => 0

/-- A ball 10 px above the blade, moving straight down. -/
def gateBall : Ball := { mkBall 30 10 0 with vy := -5 }

/-- Scheduler state right after `start()` at time 0. -/
def loopStarted : LoopState :=
  { isRunning := true, isPaused := false, lastTime := 0, accumulator := 0 }

/-- Root state `A` whose `onExit` hook calls `machine.transition("B")` —
an ordinary cleanup-style hook. -/
def nodeAwithExitReq : SNode :=
  { name := "A", parent := none, children := [], activeChild := none,
    enterReqs := [], exitReqs := [["B"]] }

/-- Root state `A` with inert hooks. -/
def nodeAinert : SNode :=
  { name := "A", parent := none, children := [], activeChild := none,
    enterReqs := [], exitReqs := [] }

/-- Root state `B` with inert hooks. -/
def nodeBinert : SNode :=
  { name := "B", parent := none, children := [], activeChild := none,
    enterReqs := [], exitReqs := [] }

/-- Machine for the C2 counterexample: in root `A` whose `onExit` requests a
transition to the registered root `B`. -/
def machineC2 : SM :=
  { nodes := [nodeAwithExitReq, nodeBinert], states := [("A", 0), ("B", 1)],
    currentState := some 0, history := [], maxHistory := 20,
    transitioning := false, eventQueue := [], trace := [] }

/-- Machine for the C2 amended claim: as `machineC2` but with inert hooks. -/
def machineC2inert : SM :=
  { machineC2 with nodes := [nodeAinert, nodeBinert] }

/-- Nodes for the C8 FIFO scenario: entering `X` requests `B` then `C`;
entering `B` requests `D`. -/
def nodeZ : SNode :=
  { name := "Z", parent := none, children := [], activeChild := none,
    enterReqs := [], exitReqs := [] }

def nodeX : SNode := { nodeZ with name := "X", enterReqs := [["B"], ["C"]] }

def nodeB8 : SNode := { nodeZ with name := "B", enterReqs := [["D"]] }

def nodeC8 : SNode := { nodeZ with name := "C" }

def nodeD8 : SNode := { nodeZ with name := "D" }

/-- Machine for the C8 FIFO scenario, currently in `Z`. -/
def machineC8 : SM :=
  { nodes := [nodeZ, nodeX, nodeB8, nodeC8, nodeD8],
    states := [("Z", 0), ("X", 1), ("B", 2), ("C", 3), ("D", 4)],
    currentState := some 0, history := [], maxHistory := 20,
    transitioning := false, eventQueue := [], trace := [] }

/-- A machine mid-transition (busy flag set), used to exhibit the FIFO
enqueue behaviour. -/
def machineBusy : SM :=
  { machineC8 with transitioning := true, eventQueue := [["B"]] }

/-- Nodes for the C10 scenario: root `A` with child `A1`, root `B`. -/
def nodeA10 : SNode :=
  { name := "A", parent := none, children := [("A1", 2)], activeChild := none,
    enterReqs := [], exitReqs := [] }

def nodeB10 : SNode :=
  { name := "B", parent := none, children := [], activeChild := none,
    enterReqs := [], exitReqs := [] }

def nodeA1 : SNode :=
  { name := "A1", parent := some 0, children := [], activeChild := none,
    enterReqs := [], exitReqs := [] }

/-- Machine for the C10 scenario, not yet started. -/
def machineC10 : SM :=
  { nodes := [nodeA10, nodeB10, nodeA1], states := [("A", 0), ("B", 1)],
    currentState := none, history := [], maxHistory := 20,
    transitioning := false, eventQueue := [], trace := [] }

/-- C10 scenario, step 1: start in `A` and descend to `A.A1`. -/
def machineC10inA1 : SM := SM.transitionF 8 (machineC10.start "A") ["A", "A1"]

/-- C10 scenario, step 2: transition away to root `B`. -/
def machineC10inB : SM := SM.transitionF 8 machineC10inA1 ["B"]

/-- C10 scenario, step 3: transition back to root `A` by its bare name. -/
def machineC10back : SM := SM.transitionF 8 machineC10inB ["A"]

/-- A ball captured by the scoop, as `handleZoneHit` would produce. -/
def capturedScenarioBall : Ball := (mkBall 400 1100 0).capture "scoop"

/-- All machine fields except the hook-invocation trace agree (used to state
that a failed transition leaves the machine untouched). -/
def exitPreserved (m m' : SM) : Prop :=
  m'.nodes = m.nodes ∧ m'.states = m.states ∧ m'.currentState = m.currentState ∧
  m'.history = m.history ∧ m'.maxHistory = m.maxHistory ∧
  m'.transitioning = m.transitioning ∧ m'.eventQueue = m.eventQueue

/-! ## Theorems -/

/-- C1.  (code bug) For a ball whose centre coincides exactly with the centre
of the circle zone `bumper_left`, `checkCircleCollision` — and hence the whole
zone pass — produces NaN coordinates (`none`): the overlap test `0 < 40`
succeeds and the contact normal is computed as `0/0` with no fallback.  By
contrast the rect path (`top_lane_left`, ball centre coinciding with the
closest rect point) substitutes the declared fallback normal `(0, 1)` and
yields finite coordinates, as the spec demands for every degenerate case.
The hypothesis `sq 0 = 0` is the only fact about `Math.sqrt` used. -/
theorem circle_degenerate_nan_rect_fallback (sq : ℚ → ℚ) (h : sq 0 = 0) :
    checkCircleCollision sq degenerateCircleBall bumperLeft = none
    ∧ checkZoneCollisions sq [bumperLeft] degenerateCircleBall = none
    ∧ checkRectCollision sq degenerateRectBall topLaneLeft
        = some ({ degenerateRectBall with y := 107, vx := 1.3, vy := 1.95 }, true) := by
  refine ⟨?_, ?_, ?_⟩ <;>
    norm_num [checkCircleCollision, checkRectCollision, checkZoneCollisions,
      checkZoneCollision, degenerateCircleBall, degenerateRectBall, bumperLeft,
      topLaneLeft, mkBall, jsDiv, h, BALL_RADIUS, BOUNCE_DAMPING, BUMPER_KICK,
      fallbackNormalX, fallbackNormalY]

/-- C1 witness: the theorem applied to the square root function that is zero
everywhere (correct at the only radicand reached, `0`). -/
theorem circle_degenerate_nan_rect_fallback_witness :
    checkCircleCollision (fun _ => 0) degenerateCircleBall bumperLeft = none
    ∧ checkZoneCollisions (fun _ => 0) [bumperLeft] degenerateCircleBall = none
    ∧ checkRectCollision (fun _ => 0) degenerateRectBall topLaneLeft
        = some ({ degenerateRectBall with y := 107, vx := 1.3, vy := 1.95 }, true) :=
  circle_degenerate_nan_rect_fallback (fun _ => 0) rfl

/-- A captured ball is skipped by the per-ball loop of `PhysicsEngine.update`. -/
theorem engineBallTick_captured (sq cs sn : ℚ → ℚ) (lf rf : Flipper)
    (zones : List Zone) (b : Ball) (hc : b.captured = true) :
    engineBallTick sq cs sn lf rf zones b = some b := by
  simp [engineBallTick, hc]

/-- C5.  A captured ball is excluded from integration and collision: any
number of engine ticks leave it exactly unchanged (1) — so its velocity stays
at the `(0,0)` that `capture` pinned (2–4) — and `release(vx, vy)` merely
clears the captured flag and installs exactly `(vx, vy)` (5), so the next
engine tick integrates from that velocity (6). -/
theorem captured_ball_pinned_until_release (sq cs sn : ℚ → ℚ) (lf rf : Flipper)
    (zones : List Zone) (b : Ball) (c : String) (vx vy : ℚ) (n : ℕ)
    (hc : b.captured = true) :
    engineBallTickN sq cs sn lf rf zones n b = some b
    ∧ (b.capture c).vx = 0 ∧ (b.capture c).vy = 0 ∧ (b.capture c).captured = true
    ∧ b.release vx vy
        = { b with captured := false, capturedBy := none, vx := vx, vy := vy }
    ∧ (b.active = true →
        engineBallTick sq cs sn lf rf zones (b.release vx vy)
          = resolveCollisions sq cs sn lf rf zones
              (Ball.update sq { b with captured := false, capturedBy := none,
                                       vx := vx, vy := vy })) := by
  refine ⟨?_, rfl, rfl, rfl, rfl, ?_⟩
  · induction n with
    | zero => simp [engineBallTickN]
    | succ k ih =>
      simp [engineBallTickN, engineBallTick_captured sq cs sn lf rf zones b hc, ih]
  · intro ha
    simp [engineBallTick, Ball.release, ha]

/-- C5 witness: a concrete scoop-captured ball at (400, 1100); three ticks
leave it unchanged, and release with velocity (5, -7) restores integration
from exactly that velocity. -/
theorem captured_ball_pinned_until_release_witness :
    engineBallTickN (fun _ => 0) (fun _ => 0) (fun _ => 0) leftFlipper
        rightFlipper [bumperLeft] 3 capturedScenarioBall = some capturedScenarioBall
    ∧ (capturedScenarioBall.capture "lock").vx = 0
    ∧ (capturedScenarioBall.capture "lock").vy = 0
    ∧ (capturedScenarioBall.capture "lock").captured = true
    ∧ capturedScenarioBall.release 5 (-7)
        = { capturedScenarioBall with
            captured := false, capturedBy := none, vx := 5, vy := -7 }
    ∧ (capturedScenarioBall.active = true →
        engineBallTick (fun _ => 0) (fun _ => 0) (fun _ => 0) leftFlipper
            rightFlipper [bumperLeft] (capturedScenarioBall.release 5 (-7))
          = resolveCollisions (fun _ => 0) (fun _ => 0) (fun _ => 0) leftFlipper
              rightFlipper [bumperLeft]
              (Ball.update (fun _ => 0)
                { capturedScenarioBall with
                  captured := false, capturedBy := none, vx := 5, vy := -7 })) :=
  captured_ball_pinned_until_release (fun _ => 0) (fun _ => 0) (fun _ => 0)
    leftFlipper rightFlipper [bumperLeft] capturedScenarioBall "lock" 5 (-7) 3 rfl

/-- The fixed step duration is positive. -/
theorem fixedDeltaTime_pos : (0 : ℚ) < fixedDeltaTime := by
  norm_num [fixedDeltaTime]

/-- The consumption loop invariant: starting from a non-negative accumulator,
the remainder is non-negative and strictly below one fixed step. -/
theorem consumeSteps_spec (acc : ℚ) (h : 0 ≤ acc) :
    0 ≤ (consumeSteps acc).2 ∧ (consumeSteps acc).2 < fixedDeltaTime := by
  have hfd := fixedDeltaTime_pos
  have hq0 : 0 ≤ acc / fixedDeltaTime := div_nonneg h hfd.le
  have hfl0 : (0 : ℤ) ≤ ⌊acc / fixedDeltaTime⌋ := Int.floor_nonneg.mpr hq0
  have hcast : ((⌊acc / fixedDeltaTime⌋.toNat : ℕ) : ℚ)
      = ((⌊acc / fixedDeltaTime⌋ : ℤ) : ℚ) := by
    exact_mod_cast congrArg (fun z : ℤ => (z : ℚ)) (Int.toNat_of_nonneg hfl0)
  have hle : ((⌊acc / fixedDeltaTime⌋ : ℤ) : ℚ) ≤ acc / fixedDeltaTime :=
    Int.floor_le _
  have hlt : acc / fixedDeltaTime < ((⌊acc / fixedDeltaTime⌋ : ℤ) : ℚ) + 1 :=
    Int.lt_floor_add_one _
  have heq : acc / fixedDeltaTime * fixedDeltaTime = acc :=
    div_mul_cancel₀ acc hfd.ne.symm
  have hle' : ((⌊acc / fixedDeltaTime⌋ : ℤ) : ℚ) * fixedDeltaTime ≤ acc := by
    have := mul_le_mul_of_nonneg_right hle hfd.le
    linarith [heq]
  have hlt' : acc < ((⌊acc / fixedDeltaTime⌋ : ℤ) : ℚ) * fixedDeltaTime
      + fixedDeltaTime := by
    have := mul_lt_mul_of_pos_right hlt hfd
    have hring : (((⌊acc / fixedDeltaTime⌋ : ℤ) : ℚ) + 1) * fixedDeltaTime
        = ((⌊acc / fixedDeltaTime⌋ : ℤ) : ℚ) * fixedDeltaTime + fixedDeltaTime := by
      ring
    linarith [heq, hring]
  simp only [consumeSteps]
  rw [hcast]
  constructor
  · linarith
  · linarith

/-- C6.  On a single running, unpaused tick starting from a consistent clock
(accumulator in `[0, fixedDeltaTime)`), the wall-clock delta folded into the
accumulator is `min(delta, maxAccumulator)` — capped at `maxAccumulator`
(conjuncts 2–3) — and consequently at most 5 fixed `update` calls are made
this tick, whatever the delta (conjunct 1; a 10-second spike included). -/
theorem tick_caps_delta_and_update_count (s : LoopState) (now : ℚ)
    (hr : s.isRunning = true) (hp : s.isPaused = false)
    (h0 : 0 ≤ s.accumulator) (h1 : s.accumulator < fixedDeltaTime) :
    (loopTick s now).2.1 ≤ 5
    ∧ (loopTick s now).1.accumulator
        + (loopTick s now).2.1 * fixedDeltaTime
        = s.accumulator + min (now - s.lastTime) maxAccumulator
    ∧ min (now - s.lastTime) maxAccumulator ≤ maxAccumulator := by
  have hfd := fixedDeltaTime_pos
  have hmax : maxAccumulator = 5 * fixedDeltaTime := by
    rw [maxAccumulator]; ring
  obtain ⟨run, paused, last, acc⟩ := s
  simp only at hr hp h0 h1 ⊢
  subst hr; subst hp
  simp only [loopTick, consumeSteps, Bool.true_eq_false, if_false,
    Bool.false_eq_true]
  refine ⟨?_, by ring, min_le_right _ _⟩
  have hacc : acc + min (now - last) maxAccumulator < 6 * fixedDeltaTime := by
    have hm : min (now - last) maxAccumulator ≤ maxAccumulator :=
      min_le_right _ _
    linarith
  have hq : (acc + min (now - last) maxAccumulator) / fixedDeltaTime < 6 := by
    rw [div_lt_iff₀ hfd]; linarith
  have hfl : ⌊(acc + min (now - last) maxAccumulator) / fixedDeltaTime⌋ < 6 := by
    apply Int.floor_lt.mpr
    push_cast
    exact hq
  omega

/-- C6 witness: from a freshly started clock, a 10-second delta spike produces
exactly 5 fixed updates (the last conjunct), and the theorem's bounds hold. -/
theorem tick_caps_delta_and_update_count_witness :
    ((loopTick loopStarted 10000).2.1 ≤ 5
      ∧ (loopTick loopStarted 10000).1.accumulator
          + (loopTick loopStarted 10000).2.1 * fixedDeltaTime
          = loopStarted.accumulator
            + min (10000 - loopStarted.lastTime) maxAccumulator
      ∧ min (10000 - loopStarted.lastTime) maxAccumulator ≤ maxAccumulator)
    ∧ (loopTick loopStarted 10000).2.1 = 5 := by
  refine ⟨tick_caps_delta_and_update_count loopStarted 10000 rfl rfl
    (by norm_num [loopStarted]) (by norm_num [loopStarted, fixedDeltaTime]), ?_⟩
  norm_num [loopTick, loopStarted, consumeSteps, fixedDeltaTime, maxAccumulator]
  decide

/-- One tick preserves the clock invariant when timestamps do not decrease,
and any alpha it hands to `render` lies in `[0, 1)`. -/
theorem loopTick_inv (s : LoopState) (now : ℚ) (hinv : LoopInv s)
    (hle : s.lastTime ≤ now) :
    LoopInv (loopTick s now).1
    ∧ ∀ a ∈ ((loopTick s now).2.2).toList, 0 ≤ a ∧ a < 1 := by
  have hfd := fixedDeltaTime_pos
  obtain ⟨h0, h1⟩ := hinv
  obtain ⟨run, paused, last, acc⟩ := s
  simp only at h0 h1 hle
  cases run with
  | false => exact ⟨⟨h0, h1⟩, by simp [loopTick]⟩
  | true =>
    cases paused with
    | true =>
      refine ⟨⟨h0, h1⟩, ?_⟩
      intro a ha
      simp only [loopTick, Bool.true_eq_false, if_false, if_true,
        Option.toList_some, List.mem_singleton] at ha
      subst ha
      exact ⟨div_nonneg h0 hfd.le, (div_lt_one hfd).mpr h1⟩
    | false =>
      have hmin0 : 0 ≤ min (now - last) maxAccumulator := by
        have h2 : (0 : ℚ) ≤ now - last := by linarith
        have h3 : (0 : ℚ) ≤ maxAccumulator := by
          norm_num [maxAccumulator, fixedDeltaTime]
        exact le_min h2 h3
      have hacc : 0 ≤ acc + min (now - last) maxAccumulator := by linarith
      have hcs := consumeSteps_spec _ hacc
      refine ⟨⟨?_, ?_⟩, ?_⟩
      · simpa [loopTick] using hcs.1
      · simpa [loopTick] using hcs.2
      · intro a ha
        simp only [loopTick, Bool.true_eq_false, if_false,
          Bool.false_eq_true, Option.toList_some, List.mem_singleton] at ha
        subst ha
        exact ⟨div_nonneg hcs.1 hfd.le, (div_lt_one hfd).mpr hcs.2⟩

/-- C7.  Over any chronological sequence of external operations (ticks with
non-decreasing timestamps, start/stop/pause/resume anywhere), a clock that
satisfies the invariant keeps satisfying it — after consuming fixed steps the
accumulator is strictly below the fixed step — and every interpolation alpha
passed to `render`, including on ticks executed while paused, lies in
`[0, 1)`. -/
theorem scheduler_invariant_and_alpha_bounds (ops : List LoopOp) :
    ∀ s : LoopState, LoopInv s → validOps s ops = true →
    LoopInv (runLoop s ops).1 ∧ ∀ a ∈ (runLoop s ops).2, 0 ≤ a ∧ a < 1 := by
  induction ops with
  | nil =>
    intro s hinv _
    exact ⟨hinv, by simp [runLoop]⟩
  | cons op rest ih =>
    intro s hinv hv
    cases op with
    | tick now =>
      simp only [validOps, Bool.and_eq_true, decide_eq_true_eq] at hv
      obtain ⟨hle, hv'⟩ := hv
      have h := loopTick_inv s now hinv hle
      have hrec := ih _ h.1 hv'
      simp only [runLoop]
      refine ⟨hrec.1, ?_⟩
      intro a ha
      rcases List.mem_append.mp ha with ha | ha
      · exact h.2 a ha
      · exact hrec.2 a ha
    | start now =>
      simp only [validOps] at hv
      have hinv' : LoopInv (loopStart s now) := by
        unfold loopStart
        split
        · exact hinv
        · exact ⟨le_refl 0, fixedDeltaTime_pos⟩
      simpa [runLoop] using ih _ hinv' hv
    | stop =>
      simp only [validOps] at hv
      have hinv' : LoopInv (loopStop s) := hinv
      simpa [runLoop] using ih _ hinv' hv
    | pause =>
      simp only [validOps] at hv
      have hinv' : LoopInv (loopPause s) := by
        unfold loopPause
        split <;> exact hinv
      simpa [runLoop] using ih _ hinv' hv
    | resume now =>
      simp only [validOps] at hv
      have hinv' : LoopInv (loopResume s now) := by
        unfold loopResume
        split
        · exact ⟨le_refl 0, fixedDeltaTime_pos⟩
        · exact hinv
      simpa [runLoop] using ih _ hinv' hv

/-- C7 witness: a concrete chronological sequence with ticks, a paused tick
and a resume, starting from a freshly started clock. -/
theorem scheduler_invariant_and_alpha_bounds_witness :
    LoopInv (runLoop loopStarted
        [.tick (50/3), .pause, .tick 100, .resume 120, .tick 125]).1
    ∧ ∀ a ∈ (runLoop loopStarted
        [.tick (50/3), .pause, .tick 100, .resume 120, .tick 125]).2,
        0 ≤ a ∧ a < 1 :=
  scheduler_invariant_and_alpha_bounds
    [.tick (50/3), .pause, .tick 100, .resume 120, .tick 125] loopStarted
    ⟨le_refl 0, by norm_num [loopStarted, fixedDeltaTime]⟩
    (by norm_num [validOps, loopTick, loopPause, loopResume, loopStarted,
      consumeSteps, fixedDeltaTime, maxAccumulator])

/-- C4.  The left flipper behaves as specified: pressed from rest, the angle
advances by exactly the fixed angular speed each tick (conjuncts 1–2), snaps
to the max angle on overshoot (3), holds there (4), and the release sweep
advances at 60% of the strike speed (5).  The right flipper refutes the claim:
the span from rest to max exceeds one tick's angular speed (6), yet a single
pressed update lands exactly on the max angle (7) — its angular velocity is
given the wrong sign, so the angle moves *away* from the target and the
overshoot test fires immediately — and likewise a single released update lands
back on the rest angle (8). -/
theorem flipper_sweep_left_fixed_speed_right_snaps :
    (leftFlipper.press.update).angle = leftFlipper.restAngle + flipperAngularSpeed
    ∧ (leftFlipper.press.update.update).angle
        = leftFlipper.restAngle + 2 * flipperAngularSpeed
    ∧ (leftFlipper.press.update.update.update).angle = leftFlipper.maxAngle
    ∧ (leftFlipper.press.update.update.update.update).angle = leftFlipper.maxAngle
    ∧ (leftFlipper.press.update.update.update.update.release.update).angle
        = leftFlipper.maxAngle - flipperAngularSpeed * 0.6
    ∧ jsAbs (rightFlipper.maxAngle - rightFlipper.restAngle) > flipperAngularSpeed
    ∧ (rightFlipper.press.update).angle = rightFlipper.maxAngle
    ∧ (rightFlipper.press.update.release.update).angle = rightFlipper.restAngle := by
  refine ⟨?_, ?_, ?_, ?_, ?_, ?_, ?_, ?_⟩ <;>
    norm_num [leftFlipper, rightFlipper, mkFlipper, Flipper.press, Flipper.release,
      Flipper.update, jsAbs, flipperAngularSpeed, FLIPPER_ANGULAR_VEL,
      FLIPPER_REST_ANGLE, FLIPPER_MAX_ANGLE, FLIPPER_LENGTH, FLIPPER_WIDTH,
      mathPi, LEFT_FLIPPER_X, LEFT_FLIPPER_Y, RIGHT_FLIPPER_X, RIGHT_FLIPPER_Y]

/-- C3.  `isMovingUp` during the left flipper's life cycle: true on an active
press-sweep tick (1), false while held at max (2), false while returning to
rest (3) — as claimed.  The right flipper refutes the claim: on its (single,
snapping) pressed update `isMovingUp` is false (4), while on its released
update — sweeping back toward rest — `isMovingUp` is true (5), because
`Flipper.update` assigns its angular velocity the wrong sign.  Conjuncts 6–7
show the kick gate of `checkFlipperCollision` on a concrete contact: with
`isMovingUp` false the contact only reflects and damps the velocity; with
`isMovingUp` true the same contact additionally receives the kick impulse
`(0, -FLIPPER_KICK)`. -/
theorem isMovingUp_window_and_kick_gate :
    (leftFlipper.press.update).isMovingUp = true
    ∧ (leftFlipper.press.update.update.update.update).isMovingUp = false
    ∧ (leftFlipper.press.update.update.update.update.release.update).isMovingUp
        = false
    ∧ (rightFlipper.press.update).isMovingUp = false
    ∧ (rightFlipper.press.update.release.update).isMovingUp = true
    ∧ checkFlipperCollision gateSqrt gateCos gateSin gateBall gateFlipper
        = some ({ gateBall with y := 18, vy := 3.25 }, true)
    ∧ checkFlipperCollision gateSqrt gateCos gateSin gateBall gateFlipperMoving
        = some ({ gateBall with y := 18, vy := 3.25 - FLIPPER_KICK }, true) := by
  refine ⟨?_, ?_, ?_, ?_, ?_, ?_, ?_⟩ <;>
    norm_num [leftFlipper, rightFlipper, mkFlipper, Flipper.press, Flipper.release,
      Flipper.update, Flipper.isMovingUp, jsAbs, jsDiv, flipperAngularSpeed,
      FLIPPER_ANGULAR_VEL, FLIPPER_REST_ANGLE, FLIPPER_MAX_ANGLE, FLIPPER_LENGTH,
      FLIPPER_WIDTH, FLIPPER_KICK, BOUNCE_DAMPING, BALL_RADIUS, mathPi,
      LEFT_FLIPPER_X, LEFT_FLIPPER_Y, RIGHT_FLIPPER_X, RIGHT_FLIPPER_Y,
      checkFlipperCollision, gateSqrt, gateCos, gateSin, gateBall, gateFlipper,
      gateFlipperMoving, mkBall, Ball.applyImpulse]

/-- The relation `exitPreserved` is reflexive. -/
theorem exitPreserved_refl (m : SM) : exitPreserved m m :=
  ⟨rfl, rfl, rfl, rfl, rfl, rfl, rfl⟩

theorem exitPreserved_trans {a b c : SM} (h1 : exitPreserved a b)
    (h2 : exitPreserved b c) : exitPreserved a c :=
  ⟨h2.1.trans h1.1, h2.2.1.trans h1.2.1, h2.2.2.1.trans h1.2.2.1,
   h2.2.2.2.1.trans h1.2.2.2.1, h2.2.2.2.2.1.trans h1.2.2.2.2.1,
   h2.2.2.2.2.2.1.trans h1.2.2.2.2.2.1, h2.2.2.2.2.2.2.trans h1.2.2.2.2.2.2⟩

theorem fireExit_exitPreserved (m : SM) (i : ℕ)
    (h : ∀ n ∈ m.nodes, n.exitReqs = []) : exitPreserved m (m.fireExit i) := by
  unfold SM.fireExit
  cases hn : m.nodes[i]? with
  | none => exact exitPreserved_refl m
  | some n =>
    refine ⟨rfl, rfl, rfl, rfl, rfl, rfl, ?_⟩
    simp [h n (List.getElem?_mem hn)]

theorem exitUp_exitPreserved (stopAt : Option ℕ) (fuel : ℕ) :
    ∀ (m : SM) (oi : Option ℕ), (∀ n ∈ m.nodes, n.exitReqs = []) →
    exitPreserved m (SM.exitUp stopAt fuel m oi) := by
  induction fuel with
  | zero =>
    intro m oi _
    cases oi <;> exact exitPreserved_refl m
  | succ f ih =>
    intro m oi h
    cases oi with
    | none => exact exitPreserved_refl m
    | some i =>
      simp only [SM.exitUp]
      split
      · exact exitPreserved_refl m
      · have hp := fireExit_exitPreserved m i h
        have h' : ∀ n ∈ (m.fireExit i).nodes, n.exitReqs = [] := by
          rw [hp.1]; exact h
        exact exitPreserved_trans hp (ih (m.fireExit i) (m.parentOf i) h')

theorem exitCurrentState_exitPreserved (m : SM)
    (h : ∀ n ∈ m.nodes, n.exitReqs = []) :
    exitPreserved m m.exitCurrentState := by
  unfold SM.exitCurrentState
  cases hc : m.currentState with
  | none => exact exitPreserved_refl m
  | some cur =>
    have h1 := exitUp_exitPreserved (m.parentOf cur) (m.nodes.length + 1) m
      (some (m.activeLeafFrom m.nodes.length cur)) h
    have h' : ∀ n ∈ (SM.exitUp (m.parentOf cur) (m.nodes.length + 1) m
        (some (m.activeLeafFrom m.nodes.length cur))).nodes, n.exitReqs = [] := by
      rw [h1.1]; exact h
    exact exitPreserved_trans h1 (fireExit_exitPreserved _ cur h')

theorem drainF_no_queue (fuel : ℕ) (m : SM) (h : m.eventQueue = []) :
    SM.drainF fuel m = m := by
  cases fuel with
  | zero => rfl
  | succ f =>
    simp only [SM.drainF, h]
    split <;> rfl

theorem unknown_root_keeps_state (fuel : ℕ) (m : SM) (path : List String)
    (hbusy : m.transitioning = false) (hq : m.eventQueue = [])
    (hroot : m.lookupRoot (path.headD "") = none)
    (hcur : ∀ cur, m.currentState = some cur →
      ¬ m.nameOf cur = some (path.headD ""))
    (hinert : ∀ n ∈ m.nodes, n.exitReqs = []) :
    (SM.transitionF fuel m path).currentState = m.currentState
    ∧ (SM.transitionF fuel m path).nodes = m.nodes
    ∧ (SM.transitionF fuel m path).history = m.history := by
  obtain ⟨nds, sts, cur?, hist, maxH, tr, q, trc⟩ := m
  replace hbusy : tr = false := hbusy
  subst hbusy
  replace hq : q = [] := hq
  subst hq
  cases cur? with
  | none =>
    dsimp only [SM.transitionF, SM.transitionCore]
    simp only [Bool.false_eq_true, if_false]
    rw [drainF_no_queue fuel _ rfl]
    exact ⟨rfl, rfl, rfl⟩
  | some cur =>
    dsimp only [SM.transitionF, SM.transitionCore]
    simp only [Bool.false_eq_true, if_false]
    have hname : ¬ ((⟨nds, sts, some cur, hist, maxH, true,
        ([] : List (List String)), trc⟩ : SM).nameOf cur
          = some (path.headD "")) := hcur cur rfl
    rw [if_pos hname]
    have hEP := exitCurrentState_exitPreserved
      (⟨nds, sts, some cur, hist, maxH, true, [], trc⟩ : SM) hinert
    have hlr : (SM.exitCurrentState
        (⟨nds, sts, some cur, hist, maxH, true, [], trc⟩ : SM)).lookupRoot
        (path.headD "") = none := by
      unfold SM.lookupRoot
      rw [hEP.2.1]
      exact hroot
    rw [hlr]
    rw [drainF_no_queue fuel _ (by
      show (SM.exitCurrentState _).eventQueue = _
      rw [hEP.2.2.2.2.2.2])]
    exact ⟨hEP.2.2.1, hEP.1, hEP.2.2.2.1⟩

/-- C2 witness machine facts and instantiation: a machine in root `A` with
inert hooks; a transition to the unregistered root `missing` leaves the
current state, the node arena (hence the active chain) and the history
unchanged. -/
theorem unknown_root_keeps_state_witness :
    (SM.transitionF 10 machineC2inert ["missing"]).currentState
        = machineC2inert.currentState
    ∧ (SM.transitionF 10 machineC2inert ["missing"]).nodes = machineC2inert.nodes
    ∧ (SM.transitionF 10 machineC2inert ["missing"]).history
        = machineC2inert.history :=
  unknown_root_keeps_state 10 machineC2inert ["missing"] rfl rfl (by decide)
    (by intro cur hc; injection hc with h; subst h; decide) (by decide)

/-- C2 counterexample.  The machine is idle in root `A` (whose `onExit` hook
requests a transition to the registered root `B` — ordinary cleanup-style hook
code) and `missing` is not registered; yet after `transition("missing")` the
current state is `B`, not `A`: `exitCurrentState` runs — invoking the onExit
hooks of the chain (the root's twice) — *before* the target lookup fails, and
the hook's queued request is then replayed.  The claim's "current state
unchanged / no onExit has any effect" is therefore false as stated. -/
theorem unknown_root_counterexample :
    machineC2.transitioning = false ∧ machineC2.eventQueue = []
    ∧ machineC2.lookupRoot "missing" = none
    ∧ machineC2.currentState = some 0 ∧ machineC2.nameOf 0 = some "A"
    ∧ (SM.transitionF 10 machineC2 ["missing"]).currentState = some 1
    ∧ (SM.transitionF 10 machineC2 ["missing"]).nameOf 1 = some "B"
    ∧ (SM.transitionF 10 machineC2 ["missing"]).trace.count (.exit "A") = 4 := by
  decide

/-- C8.  FIFO deferral of re-entrant transitions: (1) a `transition` called
while one is in flight only appends the request to the back of the event
queue; (2–5) concretely, transitioning to `X` — whose `onEnter` requests `B`
then `C`, while `B`'s `onEnter` requests `D` — replays the requests in request
order (history `X, B, C, D`), drains the queue completely even though a replay
enqueued more, and ends in `D`. -/
theorem transition_fifo_replay :
    (∀ (fuel : ℕ) (m : SM) (p : List String), m.transitioning = true →
        SM.transitionF fuel m p = { m with eventQueue := m.eventQueue ++ [p] })
    ∧ (SM.transitionF 10 machineC8 ["X"]).history = [["X"], ["B"], ["C"], ["D"]]
    ∧ (SM.transitionF 10 machineC8 ["X"]).currentState = some 4
    ∧ (SM.transitionF 10 machineC8 ["X"]).nameOf 4 = some "D"
    ∧ (SM.transitionF 10 machineC8 ["X"]).eventQueue = [] := by
  refine ⟨?_, by decide, by decide, by decide, by decide⟩
  intro fuel m p h
  simp [SM.transitionF, h]

/-- C8 witness: a concrete busy machine; the request is appended at the back
of the queue and nothing else happens. -/
theorem transition_fifo_replay_witness :
    SM.transitionF 7 machineBusy ["Q"]
      = { machineBusy with eventQueue := machineBusy.eventQueue ++ [["Q"]] } :=
  transition_fifo_replay.1 7 machineBusy ["Q"] rfl

/-- Invoking `fireExit` never touches the node arena. -/
theorem fireExit_nodes (m : SM) (i : ℕ) : (m.fireExit i).nodes = m.nodes := by
  unfold SM.fireExit
  cases m.nodes[i]? <;> rfl

/-- Invoking `fireExit` never touches the current-state pointer. -/
theorem fireExit_currentState (m : SM) (i : ℕ) :
    (m.fireExit i).currentState = m.currentState := by
  unfold SM.fireExit
  cases m.nodes[i]? <;> rfl

/-- The upward exit walk never touches the node arena. -/
theorem exitUp_nodes (stopAt : Option ℕ) (fuel : ℕ) :
    ∀ (m : SM) (oi : Option ℕ), (SM.exitUp stopAt fuel m oi).nodes = m.nodes := by
  induction fuel with
  | zero => intro m oi; cases oi <;> rfl
  | succ f ih =>
    intro m oi
    cases oi with
    | none => rfl
    | some i =>
      simp only [SM.exitUp]
      split
      · rfl
      · rw [ih (m.fireExit i) (m.parentOf i), fireExit_nodes]

/-- The upward exit walk never touches the current-state pointer. -/
theorem exitUp_currentState (stopAt : Option ℕ) (fuel : ℕ) :
    ∀ (m : SM) (oi : Option ℕ),
    (SM.exitUp stopAt fuel m oi).currentState = m.currentState := by
  induction fuel with
  | zero => intro m oi; cases oi <;> rfl
  | succ f ih =>
    intro m oi
    cases oi with
    | none => rfl
    | some i =>
      simp only [SM.exitUp]
      split
      · rfl
      · rw [ih (m.fireExit i) (m.parentOf i), fireExit_currentState]

/-- C10.  `exitCurrentState` invokes `onExit` hooks but never clears any
`activeChild` pointer (conjunct 1: the node arena is untouched for *every*
machine).  Concretely: after `A.A1` is active, transitioning to `B` invokes
the chain's onExit hooks (`A1` once, the root `A` twice — conjuncts 4–5) yet
leaves `A.activeChild = A1` (conjunct 3); transitioning back to bare `A`
re-enters only `A` — `A1`'s `onEnter` count stays at its single initial
invocation (conjunct 7) — and `getCurrentStatePath` again reports the stale
nested path `A.A1` (conjunct 6). -/
theorem exitCurrentState_stale_active_chain :
    (∀ m : SM, (SM.exitCurrentState m).nodes = m.nodes
        ∧ (SM.exitCurrentState m).currentState = m.currentState)
    ∧ machineC10inA1.getCurrentStatePath = "A.A1"
    ∧ machineC10inB.getCurrentStatePath = "B"
    ∧ machineC10inB.activeChildOf 0 = some 2
    ∧ machineC10inB.trace.count (.exit "A1") = 1
    ∧ machineC10inB.trace.count (.exit "A") = 2
    ∧ machineC10back.getCurrentStatePath = "A.A1"
    ∧ machineC10back.trace.count (.enter "A1") = 1
    ∧ machineC10back.currentState = some 0 := by
  refine ⟨?_, by decide, by decide, by decide, by decide, by decide, by decide,
    by decide, by decide⟩
  intro m
  unfold SM.exitCurrentState
  cases hc : m.currentState with
  | none => exact ⟨rfl, hc⟩
  | some cur =>
    exact ⟨(fireExit_nodes _ _).trans (exitUp_nodes _ _ _ _),
      ((fireExit_currentState _ _).trans (exitUp_currentState _ _ _ _)).trans hc⟩

/-- Drain-deactivation changes no ball's id. -/
theorem deactivateAt_map_id :
    ∀ (s : List Ball) (i : ℕ), (deactivateAt s i).map Ball.id = s.map Ball.id := by
  intro s
  induction s with
  | nil => intro i; rfl
  | cons b bs ih =>
    intro i
    cases i with
    | zero => simp [deactivateAt, deactivate]
    | succ j => simp [deactivateAt, ih j]

/-- Invariant: if the current ball list's ids read `0, 1, …, n-1`, they still
do after any sequence of create/drain operations. -/
theorem applyBallOps_ids (ops : List BallOp) :
    ∀ s : List Ball, s.map Ball.id = List.range s.length →
    (applyBallOps s ops).map Ball.id = List.range (applyBallOps s ops).length := by
  induction ops with
  | nil => intro s h; exact h
  | cons op rest ih =>
    intro s h
    cases op with
    | create x y =>
      apply ih
      simp [createBall, mkBall, h, List.range_succ]
    | drain i =>
      apply ih
      have hlen : (deactivateAt s i).length = s.length := by
        have := congrArg List.length (deactivateAt_map_id s i)
        simpa using this
      rw [deactivateAt_map_id, hlen, h]

/-- C9 (amended).  Under `createBall` and drain-deactivation alone — without
`removeBall` — ball ids are the creation-time index `0, 1, 2, …` and hence
pairwise distinct: identities are never reused. -/
theorem ball_ids_distinct_without_removal (ops : List BallOp) :
    ((applyBallOps [] ops).map Ball.id).Nodup
    ∧ (applyBallOps [] ops).map Ball.id
        = List.range (applyBallOps [] ops).length := by
  have h := applyBallOps_ids ops [] (by simp)
  exact ⟨h ▸ List.nodup_range _, h⟩

/-- C9 counterexample.  `createBall` assigns `id = balls.length`, so after
create, create, removeBall(first), a further create reassigns id `1`, already
carried by the second ball: the two balls are different objects with equal
ids — identity *is* reused once removal is involved. -/
theorem ball_id_reuse_counterexample :
    ((createBall (removeBall (createBall (createBall [] 10 20).1 30 40).1
        (createBall [] 10 20).2) 50 60).2).id
      = ((createBall (createBall [] 10 20).1 30 40).2).id
    ∧ (createBall (removeBall (createBall (createBall [] 10 20).1 30 40).1
        (createBall [] 10 20).2) 50 60).2
      ≠ (createBall (createBall [] 10 20).1 30 40).2 := by
  constructor
  · norm_num [createBall, removeBall, mkBall, List.eraseP]
  · norm_num [createBall, removeBall, mkBall, List.eraseP, Ball.mk.injEq]

end Pinball
